import Mathlib

/-!
Verification development for the meme-trading scoring pipeline (`src/app.py`).

Shallow embedding conventions:
* pandas rows are a `Row` structure following the locked CSV schema `CSV_HEADER`;
  a CSV cell that loads as NaN (missing) is `Option.none`.
* ISO timestamps are abstracted to epoch seconds (`ℤ`); Python's
  `(now - t).days` is floor division of the second difference by 86400.
* Python floats are idealised as `ℚ`; `round(x, 2)` becomes exact rational
  rounding to 2 decimal places, `int(x)` becomes truncation toward zero.
* External collaborators that the code calls but does not define —
  the DexScreener fetch (`requests.get`), the sklearn fit, and scipy's
  `spearmanr` — are passed in as function parameters.
-/

/-- Constant `LABEL_AFTER_DAYS = 3` from the CONFIG block of `app.py`. -/
def LABEL_AFTER_DAYS : ℤ := 3

/-- Constant `MIN_TRAIN_ROWS = 50` from the CONFIG block of `app.py`. -/
def MIN_TRAIN_ROWS : ℕ := 50

/-- Truncation toward zero, the behaviour of Python's `int()` on a number. -/
def truncQ (q : ℚ) : ℤ := if 0 ≤ q then ⌊q⌋ else ⌈q⌉

/-- Python's `round(x, 2)` idealised on rationals: round `100·x` to the
nearest integer and divide back. (Python rounds the underlying binary float
half-to-even; no claim depends on tie behaviour, so nearest-integer rounding
on the exact rational stands in for it.) -/
def round2 (q : ℚ) : ℚ := ((round (q * 100) : ℤ) : ℚ) / 100

/-- One row of the persisted CSV ledger, following `CSV_HEADER` in `app.py`.
`label_outcome`, `mc_after_3d`, `ml_predicted_mc`, `ml_confidence` start
as empty cells (missing after a store round-trip), hence `Option`. -/
structure Row where
  timestamp : ℤ
  ca : String
  symbol : String
  chain : String
  price : ℚ
  market_cap : ℚ
  liquidity : ℚ
  buys_5m : ℤ
  sells_5m : ℤ
  buys_1h : ℤ
  sells_1h : ℤ
  txns_24h : ℤ
  volume_5m : ℚ
  volume_1h : ℚ
  volume_24h : ℚ
  age_minutes : ℤ
  rsi_5m : ℚ
  rsi_15m : ℚ
  liq_to_mc : ℚ
  buy_sell_ratio : ℚ
  label_outcome : Option String
  mc_after_3d : Option ℚ
  ml_predicted_mc : Option ℚ
  ml_confidence : Option ℚ
deriving DecidableEq, Repr

/-- The dictionary returned by `fetch_dex` on success (`app.py` lines 101–116). -/
structure DexData where
  symbol : String
  chain : String
  price : ℚ
  mc : ℚ
  liq : ℚ
  buys5 : ℤ
  sells5 : ℤ
  buys1h : ℤ
  sells1h : ℤ
  tx24 : ℤ
  vol5 : ℚ
  vol1h : ℚ
  vol24 : ℚ
  age : ℤ
deriving DecidableEq, Repr

/-- The external DexScreener lookup: `fetch_dex(ca)` returns `None` when the
response has no pairs, otherwise a `DexData`. The network call itself is a
collaborator, so a fetch is any function of this type. -/
def Fetch : Type := String → Option DexData

/-- Function `rsi_from_buys_sells` (`app.py` lines 80–82):
`rs = buys / max(sells, 1)`, result `round(100 - 100/(1+rs), 2)`. -/
def rsi_from_buys_sells (buys sells : ℤ) : ℚ :=
  let rs : ℚ := (buys : ℚ) / ((max sells 1 : ℤ) : ℚ)
  round2 (100 - 100 / (1 + rs))

/-- Python's `(now - t).days` for epoch-second datetimes: floor division of
the elapsed seconds by 86400 (`timedelta.days` floors toward `-∞`). -/
def daysBetween (now t : ℤ) : ℤ := Int.fdiv (now - t) 86400

/-- The outcome bucket chain of `auto_label` (`app.py` lines 134–143). -/
def bucketOf (ratio : ℚ) : String :=
  if ratio < 1/2 then "RUG"
  else if ratio < 3/2 then "FLAT"
  else if ratio < 5 then "2X"
  else if ratio < 20 then "5X"
  else "20X"

/-- Re-fetched market value `mc2 = d["mc"] if d else 0` (`app.py` line 131). -/
def mc2Of (fetch : Fetch) (r : Row) : ℚ :=
  match fetch r.ca with
  | some d => d.mc
  | none => 0

/-- Guarded return ratio `ratio = mc2 / r["market_cap"] if r["market_cap"]
else 0` (`app.py` line 132). -/
def ratioOf (fetch : Fetch) (r : Row) : ℚ :=
  if r.market_cap ≠ 0 then mc2Of fetch r / r.market_cap else 0

/-- The body of the `auto_label` loop for one row (`app.py` lines 123–146):
skip if the label cell is set (`pd.notna`), skip if younger than
`LABEL_AFTER_DAYS`, otherwise re-fetch, compute the guarded ratio,
bucket it, and write `label_outcome` and `mc_after_3d`. -/
def labelRow (fetch : Fetch) (now : ℤ) (r : Row) : Row :=
  if r.label_outcome.isSome then r
  else if daysBetween now r.timestamp < LABEL_AFTER_DAYS then r
  else
    { r with label_outcome := some (bucketOf (ratioOf fetch r)),
             mc_after_3d := some (mc2Of fetch r) }

/-- Function `auto_label(df)` (`app.py` lines 121–148): the sweep applies the loop
body to every row in place and returns the store. -/
def auto_label (fetch : Fetch) (now : ℤ) (df : List Row) : List Row :=
  df.map (labelRow fetch now)

/-- An sklearn classifier artifact as `ml_predict` consumes it: the ordered
class list `model.classes_` and the probability vector
`model.predict_proba(X)[0]` for a feature row `X`. -/
structure Model where
  classes : List String
  predict_proba : List ℚ → List ℚ

/-- Function `train_ml(df)` (`app.py` lines 155–175): drop rows with a missing
`label_outcome`; if fewer than `MIN_TRAIN_ROWS` remain return `None`,
otherwise fit and return a RandomForest model. The sklearn fit is the
external collaborator `fit`. -/
def train_ml (fit : List Row → Model) (df : List Row) : Option Model :=
  let train_df := df.filter (fun r => r.label_outcome.isSome)
  if train_df.length < MIN_TRAIN_ROWS then none
  else some (fit train_df)

/-- The payoff table `MULT = {"RUG":0.2,"FLAT":1,"2X":3,"5X":10,"20X":30}`
(`app.py` line 177). -/
def MULT : List (String × ℚ) :=
  [("RUG", 1/5), ("FLAT", 1), ("2X", 3), ("5X", 10), ("20X", 30)]

/-- Dictionary lookup `MULT[k]`; `none` is Python's `KeyError`. -/
def multOf (k : String) : Option ℚ := (MULT.find? (fun p => p.1 = k)).map (·.2)

/-- The feature columns `ml_predict` reads from a row (`app.py` 183–188),
in order. -/
def featureX (row : Row) : List ℚ :=
  [row.liq_to_mc, row.buy_sell_ratio,
   (row.buys_5m : ℚ), (row.buys_1h : ℚ),
   row.volume_5m, row.volume_1h,
   (row.age_minutes : ℚ), row.rsi_5m, row.rsi_15m]

/-- Generator sum `sum(probs[k]*MULT[k] for k in probs)` over the class/probability pairs;
`none` when some class is missing from `MULT` (Python would raise). -/
def evSum : List (String × ℚ) → Option ℚ
  | [] => some 0
  | (k, p) :: rest =>
    match multOf k, evSum rest with
    | some m, some s => some (p * m + s)
    | _, _ => none

/-- Class/probability dictionary
`probs = dict(zip(model.classes_, model.predict_proba(X)[0]))`
(`app.py` line 189), kept as the zipped association list. -/
def probsOf (m : Model) (row : Row) : List (String × ℚ) :=
  m.classes.zip (m.predict_proba (featureX row))

/-- Expected multiplier written as the spec states it: the sum over classes
of class probability times the payoff-table value for that class. -/
def expected_multiplier (probs : List (String × ℚ)) : ℚ :=
  (probs.map (fun kp => kp.2 * (multOf kp.1).getD 0)).sum

/-- Function `ml_predict(model, row)` (`app.py` lines 179–191): with no model it
returns `(row["market_cap"], 0)`; with a model it zips `model.classes_`
with `predict_proba`, takes the payoff-weighted sum `ev`, and returns
`(int(market_cap * ev), round(ev, 2))`. `none` models the `KeyError` path. -/
def ml_predict (model : Option Model) (row : Row) : Option (ℚ × ℚ) :=
  match model with
  | none => some (row.market_cap, 0)
  | some m =>
    match evSum (probsOf m row) with
    | none => none
    | some ev => some (((truncQ (row.market_cap * ev) : ℤ) : ℚ), round2 ev)

/-- The row dict built inside the scan loop of `index` (`app.py` lines
240–268): RSI indicators from the buy/sell counts, the derived
`liq_to_mc` and `buy_sell_ratio` features, and the four outcome/prediction
cells starting empty. -/
def mkScanRow (now : ℤ) (ca : String) (d : DexData) : Row :=
  let rsi5 := rsi_from_buys_sells d.buys5 d.sells5
  let rsi15 := rsi_from_buys_sells d.buys1h d.sells1h
  { timestamp := now
    ca := ca
    symbol := d.symbol
    chain := d.chain
    price := d.price
    market_cap := d.mc
    liquidity := d.liq
    buys_5m := d.buys5
    sells_5m := d.sells5
    buys_1h := d.buys1h
    sells_1h := d.sells1h
    txns_24h := d.tx24
    volume_5m := d.vol5
    volume_1h := d.vol1h
    volume_24h := d.vol24
    age_minutes := d.age
    rsi_5m := rsi5
    rsi_15m := rsi15
    liq_to_mc := round2 (if d.mc ≠ 0 then d.liq / d.mc * 100 else 0)
    buy_sell_ratio := round2 ((d.buys1h : ℚ) / ((max d.sells1h 1 : ℤ) : ℚ))
    label_outcome := none
    mc_after_3d := none
    ml_predicted_mc := none
    ml_confidence := none }

/-- One iteration of the scan loop in `index` (`app.py` lines 236–274):
fetch the stripped address; on `None` skip (`continue`); otherwise build the
row dict, run `ml_predict`, store its two outputs in the row, and hand the
row back to be appended. -/
def scan_ca (fetch : Fetch) (model : Option Model) (now : ℤ) (ca : String) :
    Option Row :=
  match fetch ca.trim with
  | none => none
  | some d =>
    let row := mkScanRow now ca d
    match ml_predict model row with
    | none => none
    | some (pmc, conf) =>
      some { row with ml_predicted_mc := some pmc, ml_confidence := some conf }

/-- The whole POST loop of `index`: fold `scan_ca` over the submitted
addresses, appending each produced row to the store (`df.loc[len(df)] = row`). -/
def index_scan (fetch : Fetch) (model : Option Model) (now : ℤ)
    (cas : List String) (df : List Row) : List Row :=
  cas.foldl (fun acc ca =>
    match scan_ca fetch model now ca with
    | none => acc
    | some row => acc ++ [row]) df

/-- Result of the `/backtest` route: either the "Not enough data for backtest
yet" message or a report carrying the sample count and the correlation. -/
inductive BacktestResult where
  | insufficient : BacktestResult
  | report : ℕ → ℚ → BacktestResult
deriving DecidableEq, Repr

/-- Route `backtest()` (`app.py` lines 298–310): keep rows where both `mc_after_3d`
and `ml_predicted_mc` are present; below 20 rows return the insufficient
message; otherwise report `spearmanr(bt["ml_predicted_mc"], bt["mc_after_3d"])`
with the sample count. scipy's `spearmanr` is the external collaborator
`spearman`. -/
def backtest (spearman : List ℚ → List ℚ → ℚ) (df : List Row) : BacktestResult :=
  let bt := df.filter (fun r => r.mc_after_3d.isSome && r.ml_predicted_mc.isSome)
  if bt.length < 20 then .insufficient
  else .report bt.length
    (spearman (bt.map (fun r => r.ml_predicted_mc.getD 0))
              (bt.map (fun r => r.mc_after_3d.getD 0)))

/-! ## Concrete sample data used by witnesses and counterexamples -/

/-- A fetch that finds no pairs for any address (the `None` branch of
`fetch_dex`). -/
def wFetch : Fetch := fun _ => none

/-- A fresh, unlabeled observation row with ordinary field values. -/
def baseRow : Row :=
  { timestamp := 0, ca := "CA123", symbol := "MEME", chain := "solana",
    price := 1, market_cap := 1000, liquidity := 100,
    buys_5m := 3, sells_5m := 2, buys_1h := 10, sells_1h := 5,
    txns_24h := 20, volume_5m := 50, volume_1h := 200, volume_24h := 900,
    age_minutes := 120, rsi_5m := 60, rsi_15m := 55,
    liq_to_mc := 10, buy_sell_ratio := 2,
    label_outcome := none, mc_after_3d := none,
    ml_predicted_mc := none, ml_confidence := none }

/-- A row the Judge already labeled on an earlier sweep. -/
def c1row : Row := { baseRow with label_outcome := some "FLAT", mc_after_3d := some 500 }

/-- Market data whose re-fetched value doubles `baseRow`'s scan value. -/
def c9dex : DexData :=
  { symbol := "MEME", chain := "solana", price := 2, mc := 2000, liq := 100,
    buys5 := 1, sells5 := 1, buys1h := 1, sells1h := 1, tx24 := 2,
    vol5 := 1, vol1h := 1, vol24 := 1, age := 100 }

/-- A fetch that always returns `c9dex`. -/
def c9fetch : Fetch := fun _ => some c9dex

/-- A copy of `baseRow` with a different current market cap. -/
def c3row : Row := { baseRow with market_cap := 2000 }

/-- A two-class classifier that predicts an even split between `"RUG"` and
`"FLAT"` on every feature vector. -/
def c5model : Model :=
  { classes := ["RUG", "FLAT"], predict_proba := fun _ => [1/2, 1/2] }

/-- Market data with zero liquidity — below any positive liquidity floor. -/
def c7dex : DexData :=
  { symbol := "LOWLIQ", chain := "solana", price := 1, mc := 1000, liq := 0,
    buys5 := 1, sells5 := 1, buys1h := 1, sells1h := 1, tx24 := 2,
    vol5 := 1, vol1h := 1, vol24 := 1, age := 5 }

/-- A fetch that always returns the zero-liquidity snapshot `c7dex`. -/
def c7fetch : Fetch := fun _ => some c7dex

/-- A matured row carrying both a prediction and a realized value. -/
def btRow : Row :=
  { baseRow with mc_after_3d := some 1200, ml_predicted_mc := some 900 }

/-- A store of 20 matured rows, the minimum backtest sample size. -/
def c8df : List Row := List.replicate 20 btRow

/-! ## Helper lemmas about the labeling sweep -/

theorem labelRow_of_labeled (fetch : Fetch) (now : ℤ) (r : Row)
    (h : r.label_outcome.isSome) : labelRow fetch now r = r := by
  unfold labelRow
  simp [h]

theorem labelRow_of_young (fetch : Fetch) (now : ℤ) (r : Row)
    (h : daysBetween now r.timestamp < LABEL_AFTER_DAYS) :
    labelRow fetch now r = r := by
  unfold labelRow
  split_ifs <;> rfl

theorem labelRow_of_eligible (fetch : Fetch) (now : ℤ) (r : Row)
    (hlab : r.label_outcome = none)
    (hdays : ¬ daysBetween now r.timestamp < LABEL_AFTER_DAYS) :
    labelRow fetch now r =
      { r with label_outcome := some (bucketOf (ratioOf fetch r)),
               mc_after_3d := some (mc2Of fetch r) } := by
  unfold labelRow
  simp [hlab, hdays]

theorem labelRow_idem (fetch : Fetch) (now : ℤ) (r : Row) :
    labelRow fetch now (labelRow fetch now r) = labelRow fetch now r := by
  by_cases h1 : r.label_outcome.isSome
  · rw [labelRow_of_labeled fetch now r h1, labelRow_of_labeled fetch now r h1]
  · by_cases h2 : daysBetween now r.timestamp < LABEL_AFTER_DAYS
    · rw [labelRow_of_young fetch now r h2, labelRow_of_young fetch now r h2]
    · rw [labelRow_of_eligible fetch now r (Option.not_isSome_iff_eq_none.mp h1) h2]
      exact labelRow_of_labeled fetch now _ rfl

theorem auto_label_get (fetch : Fetch) (now : ℤ) (df : List Row) (i : ℕ) :
    (auto_label fetch now df)[i]? = (df[i]?).map (labelRow fetch now) := by
  unfold auto_label
  exact List.getElem?_map ..

theorem auto_label_idem (fetch : Fetch) (now : ℤ) (df : List Row) :
    auto_label fetch now (auto_label fetch now df) = auto_label fetch now df := by
  unfold auto_label
  induction df with
  | nil => rfl
  | cons a l ih => simp only [List.map_cons, labelRow_idem, ih]

/-! ## Claim theorems about `auto_label` -/

/-- Claim C1: labeling is write-once and idempotent. Any row whose
`label_outcome` cell is already set is returned unchanged (in particular its
`label_outcome` and `mc_after_3d` are untouched) by a later sweep under any
clock and any fetch outcome, and running the sweep twice with the same clock
and fetch yields the same store as running it once. -/
theorem auto_label_write_once_idem (fetch fetch2 : Fetch) (now now2 : ℤ)
    (df : List Row) (i : ℕ) (r : Row)
    (hget : df[i]? = some r) (hset : r.label_outcome.isSome) :
    (auto_label fetch2 now2 df)[i]? = some r ∧
    auto_label fetch now (auto_label fetch now df) = auto_label fetch now df := by
  constructor
  · rw [auto_label_get, hget]
    simp [labelRow_of_labeled fetch2 now2 r hset]
  · exact auto_label_idem fetch now df

/-- Witness for C1 at a concrete store holding one already-labeled row. -/
theorem auto_label_write_once_idem_witness :
    (auto_label wFetch 0 [c1row])[0]? = some c1row ∧
    auto_label wFetch 0 (auto_label wFetch 0 [c1row]) = auto_label wFetch 0 [c1row] :=
  auto_label_write_once_idem wFetch wFetch 0 0 [c1row] 0 c1row rfl (by decide)

/-- Claim C2: an observation strictly younger than the 3-day maturation delay
is never labeled: no matter how many times the sweep runs, the row is
returned unchanged and its `label_outcome` and `mc_after_3d` stay empty. -/
theorem auto_label_never_labels_young (fetch : Fetch) (now : ℤ) (df : List Row)
    (i : ℕ) (r : Row) (n : ℕ)
    (hget : df[i]? = some r)
    (hlab : r.label_outcome = none)
    (hmc : r.mc_after_3d = none)
    (hyoung : now - r.timestamp < LABEL_AFTER_DAYS * 86400) :
    ((auto_label fetch now)^[n] df)[i]? = some r ∧
    r.label_outcome = none ∧ r.mc_after_3d = none := by
  refine ⟨?_, hlab, hmc⟩
  have hdays : daysBetween now r.timestamp < LABEL_AFTER_DAYS := by
    unfold daysBetween LABEL_AFTER_DAYS at *
    rw [Int.fdiv_eq_ediv _ (by norm_num)]
    omega
  have hfix : labelRow fetch now r = r := labelRow_of_young fetch now r hdays
  induction n with
  | zero => simpa using hget
  | succ k ih =>
    rw [Function.iterate_succ_apply', auto_label_get, ih]
    simp [hfix]

/-- Witness for C2: five sweeps over a store holding one fresh row. -/
theorem auto_label_never_labels_young_witness :
    ((auto_label wFetch 0)^[5] [baseRow])[0]? = some baseRow ∧
    baseRow.label_outcome = none ∧ baseRow.mc_after_3d = none :=
  auto_label_never_labels_young wFetch 0 [baseRow] 0 baseRow 5 rfl rfl rfl (by decide)

theorem not_lt_days_of_mature (now t : ℤ)
    (h : LABEL_AFTER_DAYS * 86400 ≤ now - t) :
    ¬ daysBetween now t < LABEL_AFTER_DAYS := by
  unfold daysBetween LABEL_AFTER_DAYS at *
  rw [Int.fdiv_eq_ediv _ (by norm_num)]
  omega

theorem bucketOf_mem (q : ℚ) :
    bucketOf q ∈ ["RUG", "FLAT", "2X", "5X", "20X"] := by
  unfold bucketOf
  split_ifs <;> simp

theorem bucketOf_iff (q : ℚ) :
    (bucketOf q = "RUG" ↔ q < 1/2) ∧
    (bucketOf q = "FLAT" ↔ 1/2 ≤ q ∧ q < 3/2) ∧
    (bucketOf q = "2X" ↔ 3/2 ≤ q ∧ q < 5) ∧
    (bucketOf q = "5X" ↔ 5 ≤ q ∧ q < 20) ∧
    (bucketOf q = "20X" ↔ 20 ≤ q) := by
  unfold bucketOf
  split_ifs with h1 h2 h3 h4 <;>
    refine ⟨?_, ?_, ?_, ?_, ?_⟩ <;>
    constructor <;>
    intro h <;>
    first
      | rfl
      | exact absurd h (by decide)
      | linarith
      | (constructor <;> linarith)

/-- Claim C4: the Judge fails closed to the worst class. For an eligible
(unlabeled, mature) observation, if the maturation re-fetch finds no data or
the scan-time market value is zero, the sweep assigns the worst label
`"RUG"` (recording the re-fetched value) instead of skipping the row or
erroring on the division. -/
theorem auto_label_fails_closed (fetch : Fetch) (now : ℤ) (df : List Row)
    (i : ℕ) (r : Row)
    (hget : df[i]? = some r)
    (hlab : r.label_outcome = none)
    (hmature : LABEL_AFTER_DAYS * 86400 ≤ now - r.timestamp)
    (hbad : fetch r.ca = none ∨ r.market_cap = 0) :
    ∃ r', (auto_label fetch now df)[i]? = some r' ∧
      r'.label_outcome = some "RUG" ∧ r'.mc_after_3d = some (mc2Of fetch r) := by
  have hdays := not_lt_days_of_mature now r.timestamp hmature
  have hratio : ratioOf fetch r = 0 := by
    rcases hbad with hb | hb
    · have h0 : mc2Of fetch r = 0 := by
        unfold mc2Of
        rw [hb]
      unfold ratioOf
      rw [h0]
      split_ifs <;> simp
    · unfold ratioOf
      simp [hb]
  have hrug : bucketOf (ratioOf fetch r) = "RUG" := by
    rw [hratio]
    unfold bucketOf
    norm_num
  refine ⟨labelRow fetch now r, ?_, ?_, ?_⟩
  · rw [auto_label_get, hget]
    rfl
  · rw [labelRow_of_eligible fetch now r hlab hdays]
    exact congrArg some hrug
  · rw [labelRow_of_eligible fetch now r hlab hdays]

/-- Witness for C4: a mature unlabeled row whose re-fetch finds no pairs. -/
theorem auto_label_fails_closed_witness :
    ∃ r', (auto_label wFetch 300000 [baseRow])[0]? = some r' ∧
      r'.label_outcome = some "RUG" ∧
      r'.mc_after_3d = some (mc2Of wFetch baseRow) :=
  auto_label_fails_closed wFetch 300000 [baseRow] 0 baseRow rfl rfl
    (by decide) (Or.inl rfl)

/-- Claim C9: every eligible observation receives exactly one of the five
outcome labels. The guarded ratio is total, the sweep writes
`bucketOf (ratioOf fetch r)`, that label is one of
`"RUG", "FLAT", "2X", "5X", "20X"`, and the five bucket ranges are
exhaustive and mutually exclusive over all ratios (each label is assigned
exactly on its half-open interval). -/
theorem auto_label_assigns_one_of_five (fetch : Fetch) (now : ℤ)
    (df : List Row) (i : ℕ) (r : Row)
    (hget : df[i]? = some r)
    (hlab : r.label_outcome = none)
    (hmature : LABEL_AFTER_DAYS * 86400 ≤ now - r.timestamp) :
    (∃ r', (auto_label fetch now df)[i]? = some r' ∧
       r'.label_outcome = some (bucketOf (ratioOf fetch r)) ∧
       bucketOf (ratioOf fetch r) ∈ ["RUG", "FLAT", "2X", "5X", "20X"]) ∧
    (∀ q : ℚ,
      (bucketOf q = "RUG" ↔ q < 1/2) ∧
      (bucketOf q = "FLAT" ↔ 1/2 ≤ q ∧ q < 3/2) ∧
      (bucketOf q = "2X" ↔ 3/2 ≤ q ∧ q < 5) ∧
      (bucketOf q = "5X" ↔ 5 ≤ q ∧ q < 20) ∧
      (bucketOf q = "20X" ↔ 20 ≤ q)) := by
  constructor
  · refine ⟨labelRow fetch now r, ?_, ?_, bucketOf_mem _⟩
    · rw [auto_label_get, hget]
      rfl
    · rw [labelRow_of_eligible fetch now r hlab
        (not_lt_days_of_mature now r.timestamp hmature)]
  · exact bucketOf_iff

/-- Witness for C9: a mature unlabeled row whose re-fetch doubles the value. -/
theorem auto_label_assigns_one_of_five_witness :
    ∃ r', (auto_label c9fetch 300000 [baseRow])[0]? = some r' ∧
      r'.label_outcome = some (bucketOf (ratioOf c9fetch baseRow)) ∧
      bucketOf (ratioOf c9fetch baseRow) ∈ ["RUG", "FLAT", "2X", "5X", "20X"] :=
  (auto_label_assigns_one_of_five c9fetch 300000 [baseRow] 0 baseRow rfl rfl
    (by decide)).1

/-- Claim C10: the sweep is frame-preserving. `auto_label` adds and removes
no rows, and for every row only `label_outcome` and `mc_after_3d` may
change: all 22 other fields of the corresponding output row are equal to the
input row's. -/
theorem auto_label_frame (fetch : Fetch) (now : ℤ) (df : List Row) :
    (auto_label fetch now df).length = df.length ∧
    ∀ (i : ℕ) (r r' : Row),
      df[i]? = some r → (auto_label fetch now df)[i]? = some r' →
      r'.timestamp = r.timestamp ∧ r'.ca = r.ca ∧ r'.symbol = r.symbol ∧
      r'.chain = r.chain ∧ r'.price = r.price ∧
      r'.market_cap = r.market_cap ∧ r'.liquidity = r.liquidity ∧
      r'.buys_5m = r.buys_5m ∧ r'.sells_5m = r.sells_5m ∧
      r'.buys_1h = r.buys_1h ∧ r'.sells_1h = r.sells_1h ∧
      r'.txns_24h = r.txns_24h ∧ r'.volume_5m = r.volume_5m ∧
      r'.volume_1h = r.volume_1h ∧ r'.volume_24h = r.volume_24h ∧
      r'.age_minutes = r.age_minutes ∧ r'.rsi_5m = r.rsi_5m ∧
      r'.rsi_15m = r.rsi_15m ∧ r'.liq_to_mc = r.liq_to_mc ∧
      r'.buy_sell_ratio = r.buy_sell_ratio ∧
      r'.ml_predicted_mc = r.ml_predicted_mc ∧
      r'.ml_confidence = r.ml_confidence := by
  constructor
  · simp [auto_label]
  · intro i r r' h1 h2
    rw [auto_label_get, h1] at h2
    have h3 : labelRow fetch now r = r' := by simpa using h2
    subst h3
    unfold labelRow
    split_ifs <;> simp

/-- Witness for C10 at a store holding one eligible row that the sweep
actually relabels. -/
theorem auto_label_frame_witness :
    (labelRow wFetch 300000 baseRow).timestamp = baseRow.timestamp ∧
    (labelRow wFetch 300000 baseRow).ca = baseRow.ca ∧
    (labelRow wFetch 300000 baseRow).symbol = baseRow.symbol ∧
    (labelRow wFetch 300000 baseRow).chain = baseRow.chain ∧
    (labelRow wFetch 300000 baseRow).price = baseRow.price ∧
    (labelRow wFetch 300000 baseRow).market_cap = baseRow.market_cap ∧
    (labelRow wFetch 300000 baseRow).liquidity = baseRow.liquidity ∧
    (labelRow wFetch 300000 baseRow).buys_5m = baseRow.buys_5m ∧
    (labelRow wFetch 300000 baseRow).sells_5m = baseRow.sells_5m ∧
    (labelRow wFetch 300000 baseRow).buys_1h = baseRow.buys_1h ∧
    (labelRow wFetch 300000 baseRow).sells_1h = baseRow.sells_1h ∧
    (labelRow wFetch 300000 baseRow).txns_24h = baseRow.txns_24h ∧
    (labelRow wFetch 300000 baseRow).volume_5m = baseRow.volume_5m ∧
    (labelRow wFetch 300000 baseRow).volume_1h = baseRow.volume_1h ∧
    (labelRow wFetch 300000 baseRow).volume_24h = baseRow.volume_24h ∧
    (labelRow wFetch 300000 baseRow).age_minutes = baseRow.age_minutes ∧
    (labelRow wFetch 300000 baseRow).rsi_5m = baseRow.rsi_5m ∧
    (labelRow wFetch 300000 baseRow).rsi_15m = baseRow.rsi_15m ∧
    (labelRow wFetch 300000 baseRow).liq_to_mc = baseRow.liq_to_mc ∧
    (labelRow wFetch 300000 baseRow).buy_sell_ratio = baseRow.buy_sell_ratio ∧
    (labelRow wFetch 300000 baseRow).ml_predicted_mc = baseRow.ml_predicted_mc ∧
    (labelRow wFetch 300000 baseRow).ml_confidence = baseRow.ml_confidence :=
  (auto_label_frame wFetch 300000 [baseRow]).2 0 baseRow
    (labelRow wFetch 300000 baseRow) rfl rfl

/-! ## Helper lemmas about the prediction pipeline -/

theorem multOf_bounds (k : String) (q : ℚ) (h : multOf k = some q) :
    0 ≤ q ∧ q ≤ 30 := by
  unfold multOf at h
  obtain ⟨pair, hf, hq⟩ := Option.map_eq_some'.mp h
  have hmem := List.mem_of_find?_eq_some hf
  subst hq
  unfold MULT at hmem
  simp only [List.mem_cons, List.not_mem_nil, or_false] at hmem
  rcases hmem with h1 | h1 | h1 | h1 | h1 <;> rw [h1] <;> norm_num

theorem evSum_eq_expected (l : List (String × ℚ))
    (h : ∀ kp ∈ l, (multOf kp.1).isSome) :
    evSum l = some (expected_multiplier l) := by
  induction l with
  | nil => simp [evSum, expected_multiplier]
  | cons kp rest ih =>
    obtain ⟨k, p⟩ := kp
    obtain ⟨mv, hm⟩ :=
      Option.isSome_iff_exists.mp (h (k, p) (List.mem_cons_self _ _))
    have hrest := ih (fun x hx => h x (List.mem_cons_of_mem _ hx))
    have hexp : expected_multiplier ((k, p) :: rest) =
        p * mv + expected_multiplier rest := by
      unfold expected_multiplier
      simp [hm]
    rw [hexp]
    simp only [evSum, hm, hrest]

theorem expected_multiplier_le_mul (l : List (String × ℚ))
    (hcls : ∀ kp ∈ l, (multOf kp.1).isSome)
    (hnn : ∀ kp ∈ l, 0 ≤ kp.2) :
    expected_multiplier l ≤ 30 * (l.map Prod.snd).sum := by
  induction l with
  | nil => simp [expected_multiplier]
  | cons kp rest ih =>
    obtain ⟨k, p⟩ := kp
    obtain ⟨mv, hm⟩ :=
      Option.isSome_iff_exists.mp (hcls (k, p) (List.mem_cons_self _ _))
    have hb := multOf_bounds k mv hm
    have hp := hnn (k, p) (List.mem_cons_self _ _)
    have ih' := ih (fun x hx => hcls x (List.mem_cons_of_mem _ hx))
      (fun x hx => hnn x (List.mem_cons_of_mem _ hx))
    have hterm : p * mv ≤ 30 * p := by
      calc p * mv ≤ p * 30 := mul_le_mul_of_nonneg_left hb.2 hp
        _ = 30 * p := mul_comm p 30
    unfold expected_multiplier at *
    simp only [List.map_cons, List.sum_cons, hm, Option.getD_some] at *
    linarith

theorem round2_le_100 (q : ℚ) (h : q ≤ 30) : round2 q ≤ 100 := by
  have h1 : round (q * 100) ≤ 3000 := by
    rw [round_eq]
    have hle : (q * 100 + 1/2 : ℚ) ≤ 3000 + 1/2 := by linarith
    calc ⌊(q * 100 + 1/2 : ℚ)⌋ ≤ ⌊(3000 + 1/2 : ℚ)⌋ := Int.floor_mono hle
      _ = 3000 := by norm_num
  have h2 : ((round (q * 100) : ℤ) : ℚ) ≤ 3000 := by exact_mod_cast h1
  unfold round2
  linarith

/-! ## Claim theorems about `ml_predict` and `train_ml` -/

/-- Claim C3 counterexample: with no trained model, `ml_predict` does not
return an explicit "prediction unavailable" marker. Its output embeds the
row's current market cap as a numeric predicted value, so two rows that
differ only in market cap yield two different outputs, each carrying a
positive numeric prediction — there is no fixed unavailability marker. -/
theorem ml_predict_no_model_counterexample :
    ml_predict none baseRow = some (1000, 0) ∧
    ml_predict none c3row = some (2000, 0) ∧
    ml_predict none baseRow ≠ ml_predict none c3row := by
  refine ⟨rfl, rfl, fun h => ?_⟩
  rw [show ml_predict none baseRow = some ((1000 : ℚ), 0) from rfl,
      show ml_predict none c3row = some ((2000 : ℚ), 0) from rfl] at h
  simp only [Option.some.injEq, Prod.mk.injEq] at h
  exact absurd h.1 (by norm_num)

/-- Claim C3 (amended): with no trained model, `ml_predict` degrades to the
pair `(current market_cap, 0)`: the predicted value is the unchanged current
market cap and the ML-derived confidence is exactly 0, never positive; the
zero confidence is the only unavailability signal. -/
theorem ml_predict_no_model (row : Row) :
    ml_predict none row = some (row.market_cap, 0) := rfl

/-- Claim C5: given a classifier whose classes all appear in the payoff
table and whose class probabilities form a sub-distribution, `ml_predict`
returns the truncated product of the current market value with the expected
multiplier `Σ probabilities[class] × payoff_table[class]`, and a confidence
equal to the rounded expected multiplier, which (with scale constant 1)
satisfies `confidence = min(100, confidence × 1)`. -/
theorem ml_predict_with_model (m : Model) (row : Row)
    (hcls : ∀ kp ∈ probsOf m row, (multOf kp.1).isSome)
    (hnn : ∀ kp ∈ probsOf m row, 0 ≤ kp.2)
    (hsum : ((probsOf m row).map Prod.snd).sum ≤ 1) :
    ml_predict (some m) row =
      some (((truncQ (row.market_cap * expected_multiplier (probsOf m row)) : ℤ) : ℚ),
        round2 (expected_multiplier (probsOf m row))) ∧
    round2 (expected_multiplier (probsOf m row)) =
      min 100 (round2 (expected_multiplier (probsOf m row)) * 1) := by
  have hev := evSum_eq_expected (probsOf m row) hcls
  constructor
  · simp only [ml_predict, hev]
  · rw [mul_one]
    have h30 : expected_multiplier (probsOf m row) ≤ 30 := by
      have h1 := expected_multiplier_le_mul (probsOf m row) hcls hnn
      have h2 : 30 * ((probsOf m row).map Prod.snd).sum ≤ 30 * 1 :=
        mul_le_mul_of_nonneg_left hsum (by norm_num)
      linarith
    exact (min_eq_right (round2_le_100 _ h30)).symm

/-- Witness for C5: the even two-class split gives expected multiplier
`1/2 · 0.2 + 1/2 · 1 = 3/5`, predicted value `int(1000 · 3/5) = 600` and
confidence `3/5 = min(100, 3/5 · 1)`. -/
theorem ml_predict_with_model_witness :
    ml_predict (some c5model) baseRow = some ((600 : ℚ), 3/5) ∧
    (3/5 : ℚ) = min 100 ((3/5 : ℚ) * 1) := by
  have hn : ∀ kp ∈ probsOf c5model baseRow, 0 ≤ kp.2 := by
    intro kp hkp
    simp only [probsOf, c5model, List.zip_cons_cons, List.zip_nil_right,
      List.mem_cons, List.not_mem_nil, or_false] at hkp
    rcases hkp with h | h <;> rw [h] <;> norm_num
  have hs : ((probsOf c5model baseRow).map Prod.snd).sum ≤ 1 := by
    norm_num [probsOf, c5model]
  have h := ml_predict_with_model c5model baseRow (by decide) hn hs
  have mRUG : multOf "RUG" = some (1/5) := by simp [multOf, MULT]
  have mFLAT : multOf "FLAT" = some 1 := by simp [multOf, MULT]
  have e1 : expected_multiplier (probsOf c5model baseRow) = 3/5 := by
    norm_num [expected_multiplier, probsOf, c5model, mRUG, mFLAT]
  rw [e1] at h
  have e2 : round2 (3/5 : ℚ) = 3/5 := by
    unfold round2
    norm_num
  have e3 : ((truncQ (baseRow.market_cap * (3/5)) : ℤ) : ℚ) = (600 : ℚ) := by
    have : truncQ (baseRow.market_cap * (3/5)) = 600 := by
      show truncQ ((1000 : ℚ) * (3/5)) = 600
      unfold truncQ
      rw [if_pos (by norm_num)]
      norm_num
    rw [this]
    norm_num
  rw [e2, e3] at h
  exact h

/-- Claim C6: `train_ml` produces a model exactly when at least
`MIN_TRAIN_ROWS = 50` rows of the store carry a non-null `label_outcome`;
with fewer labeled rows it returns `None` instead of training. -/
theorem train_ml_min_rows (fit : List Row → Model) (df : List Row) :
    (train_ml fit df).isSome ↔
      MIN_TRAIN_ROWS ≤ (df.filter (fun r => r.label_outcome.isSome)).length := by
  simp only [train_ml]
  split_ifs with h
  · simp only [Option.isSome_none, Bool.false_eq_true, false_iff]
    omega
  · simp only [Option.isSome_some, true_iff]
    omega

/-! ## Claim theorems about the scan loop and backtest -/

/-- Claim C7 counterexample: the scan stages apply no liquidity floor. A
snapshot with liquidity 0 — below any configured floor such as the
2,500–3,000 quote-currency range — is not rejected: `scan_ca` computes its
feature row and the `index` loop appends it to the store. -/
theorem scan_low_liquidity_counterexample :
    c7dex.liq = 0 ∧ c7dex.liq < 2500 ∧
    (scan_ca c7fetch none 0 "ca0").isSome ∧
    (scan_ca c7fetch none 0 "ca0").map (fun r => r.liquidity) = some 0 ∧
    (index_scan c7fetch none 0 ["ca0"] []).length = 1 := by
  refine ⟨rfl, ?_, rfl, rfl, rfl⟩
  show (0 : ℚ) < 2500
  norm_num

/-- Claim C7 (amended): no liquidity floor exists in the pipeline. The scan
skips an address only when the fetch finds no pairs; whenever the fetch
succeeds (and the prediction step is defined), a full feature row is built
and appended to the store, no matter how low the snapshot's liquidity is. -/
theorem scan_appends_any_liquidity (fetch : Fetch) (model : Option Model)
    (now : ℤ) (ca : String) (d : DexData) (df : List Row)
    (hfetch : fetch ca.trim = some d)
    (hml : ∀ row : Row, (ml_predict model row).isSome) :
    ∃ row, scan_ca fetch model now ca = some row ∧ row.liquidity = d.liq ∧
      index_scan fetch model now [ca] df = df ++ [row] := by
  obtain ⟨⟨pmc, conf⟩, hp⟩ :=
    Option.isSome_iff_exists.mp (hml (mkScanRow now ca d))
  refine ⟨{ mkScanRow now ca d with
      ml_predicted_mc := some pmc, ml_confidence := some conf }, ?_, rfl, ?_⟩
  · simp only [scan_ca, hfetch, hp]
  · have hs : scan_ca fetch model now ca = some { mkScanRow now ca d with
        ml_predicted_mc := some pmc, ml_confidence := some conf } := by
      simp only [scan_ca, hfetch, hp]
    simp only [index_scan, List.foldl_cons, List.foldl_nil, hs]

/-- Witness for C7 (amended) at the zero-liquidity snapshot with no model. -/
theorem scan_appends_any_liquidity_witness :
    ∃ row, scan_ca c7fetch none 0 "ca0" = some row ∧
      row.liquidity = c7dex.liq ∧
      index_scan c7fetch none 0 ["ca0"] [] = [] ++ [row] :=
  scan_appends_any_liquidity c7fetch none 0 "ca0" c7dex [] rfl (fun _ => rfl)

/-- Claim C8: the backtest endpoint returns the insufficient-data message
exactly when fewer than 20 rows carry both `mc_after_3d` and
`ml_predicted_mc`, and with at least 20 such rows it reports their count
together with the rank correlation of the `ml_predicted_mc` column against
the `mc_after_3d` column (in that order), computed by the external
Spearman routine. -/
theorem backtest_spearman_contract (spearman : List ℚ → List ℚ → ℚ)
    (df : List Row) :
    (backtest spearman df = .insufficient ↔
      (df.filter (fun r => r.mc_after_3d.isSome && r.ml_predicted_mc.isSome)).length < 20) ∧
    (20 ≤ (df.filter (fun r => r.mc_after_3d.isSome && r.ml_predicted_mc.isSome)).length →
      backtest spearman df =
        .report
          (df.filter (fun r => r.mc_after_3d.isSome && r.ml_predicted_mc.isSome)).length
          (spearman
            ((df.filter (fun r => r.mc_after_3d.isSome && r.ml_predicted_mc.isSome)).map
              (fun r => r.ml_predicted_mc.getD 0))
            ((df.filter (fun r => r.mc_after_3d.isSome && r.ml_predicted_mc.isSome)).map
              (fun r => r.mc_after_3d.getD 0)))) := by
  simp only [backtest]
  split_ifs with h
  · exact ⟨iff_of_true rfl h, fun hc => absurd hc (by omega)⟩
  · exact ⟨iff_of_false (by simp) h, fun _ => rfl⟩

/-- Witness for C8: a store of exactly 20 matured rows yields a report
carrying the sample count and the collaborator's correlation value. -/
theorem backtest_spearman_contract_witness :
    backtest (fun _ _ => (0 : ℚ)) c8df = .report 20 0 := by
  have h := (backtest_spearman_contract (fun _ _ => (0 : ℚ)) c8df).2 (by decide)
  exact h.trans (by rfl)
